import Mathlib

/-!
Verification development for the ospurge purge orchestration engine
(source: src/ospurge/ospurge.py).

The Python source is shallowly embedded: every definition below is
translated from a named place of the source file.  Backend behaviour
(what the OpenStack services answer) is an explicit input of the model,
so the orchestration logic itself stays pure and executable.
-/

/-- Exceptions of the source that matter to the orchestrator's control
flow, merged over the client-library aliases that line 608-616 of the
source catches together:
* `endpointNotFound` stands for ospurge's own `EndpointNotFound` and
  the keystone/neutron/cinder/nova `EndpointNotFound` classes;
* `resourceNotEnabled` is ospurge's `ResourceNotEnabled` (line 58);
* `invalidEndpoint` stands for `ceilometerclient.exc.InvalidEndpoint`
  and `glanceclient.exc.InvalidEndpoint` (line 616);
* `deletionFailed` is ospurge's `DeletionFailed` (line 76), carrying the
  service name string given to `retry`;
* `connectionError` is `requests.exceptions.ConnectionError`;
* `otherError` covers every remaining exception class. -/
inductive PyExc where
  | endpointNotFound
  | resourceNotEnabled
  | invalidEndpoint
  | deletionFailed (serviceName : String)
  | connectionError
  | otherError
deriving DecidableEq

/-- `RETRIES = 10`, source line 48. -/
def RETRIES : Nat := 10

/-- `TIMEOUT = 5`, source line 49. -/
def TIMEOUT : Nat := 5

/-- Result of one run of the `retry` wrapper (source lines 105-122):
the returned value or the raised `DeletionFailed(service_name)`,
together with the list of `time.sleep(TIMEOUT)` durations performed. -/
structure RetryTrace (α : Type) where
  result : Except String α
  sleeps : List Nat

/-- Loop body of `retry.factory.wrapper` (source lines 108-120).  The
source counts retries upward in `n` and raises when a failure happens
with `n == RETRIES`; we carry `remaining = RETRIES - n` so that the
recursion is structural.  `call attempt` is the outcome of invoking the
wrapped function the `attempt`-th time (`none` models an exception). -/
def retryAux {α : Type} (service : String) (call : Nat → Option α) :
    Nat → Nat → List Nat → RetryTrace α
  | remaining, attempt, sleeps =>
    match call attempt with
    | some v => ⟨Except.ok v, sleeps⟩
    | none =>
      match remaining with
      | 0 => ⟨Except.error service, sleeps⟩
      | r + 1 => retryAux service call r (attempt + 1) (sleeps ++ [TIMEOUT])

/-- `retry(service_name)` applied to a call (source lines 105-122):
start with `n = 0`, i.e. `remaining = RETRIES`, no sleeps yet. -/
def retry {α : Type} (service : String) (call : Nat → Option α) : RetryTrace α :=
  retryAux service call RETRIES 0 []

/-- The resource kinds of the registry `RESOURCES_CLASSES` (source lines
86-100).  `CeilometerAlarms` is commented out in the source and is
therefore absent here as well. -/
inductive Kind where
  | cinderSnapshots
  | cinderBackups
  | novaServers
  | neutronFloatingIps
  | neutronInterfaces
  | neutronRouters
  | neutronPorts
  | neutronNetworks
  | neutronSecgroups
  | glanceImages
  | swiftObjects
  | swiftContainers
  | cinderVolumes
deriving DecidableEq

/-- The class-name string of each kind, i.e. the registry entry of
`RESOURCES_CLASSES` and the `c_name` passed to `retry` in
`Resources.purge` (source line 185-188). -/
def kindName : Kind → String
  | Kind.cinderSnapshots => "CinderSnapshots"
  | Kind.cinderBackups => "CinderBackups"
  | Kind.novaServers => "NovaServers"
  | Kind.neutronFloatingIps => "NeutronFloatingIps"
  | Kind.neutronInterfaces => "NeutronInterfaces"
  | Kind.neutronRouters => "NeutronRouters"
  | Kind.neutronPorts => "NeutronPorts"
  | Kind.neutronNetworks => "NeutronNetworks"
  | Kind.neutronSecgroups => "NeutronSecgroups"
  | Kind.glanceImages => "GlanceImages"
  | Kind.swiftObjects => "SwiftObjects"
  | Kind.swiftContainers => "SwiftContainers"
  | Kind.cinderVolumes => "CinderVolumes"

/-- `RESOURCES_CLASSES` (source lines 86-100): the fixed, ordered purge
plan iterated by `perform_on_project` (source line 602). -/
def RESOURCES_CLASSES : List Kind :=
  [Kind.cinderSnapshots,
   Kind.cinderBackups,
   Kind.novaServers,
   Kind.neutronFloatingIps,
   Kind.neutronInterfaces,
   Kind.neutronRouters,
   Kind.neutronPorts,
   Kind.neutronNetworks,
   Kind.neutronSecgroups,
   Kind.glanceImages,
   Kind.swiftObjects,
   Kind.swiftContainers,
   Kind.cinderVolumes]

/-- `action` of `perform_on_project` (source line 594): `purge` or
`dump`. -/
inductive Mode where
  | purge
  | dump
deriving DecidableEq

/-- Observable side effects of one pass: a successful backend deletion
performed by `Resources.purge`, or a line printed by `Resources.dump`.
Resource handles are abstracted to natural numbers. -/
inductive Event where
  | deleted (kind : Kind) (handle : Nat)
  | dumped (kind : Kind) (handle : Nat)
deriving DecidableEq

/-- The kind an event belongs to. -/
def Event.kindOf : Event → Kind
  | Event.deleted k _ => k
  | Event.dumped k _ => k

/-- The backend-determined behaviour of one resource kind during one
run.  `construct` is the exception raised by the kind's constructor
(`globals()[rc](session)`, source line 604; e.g. `EndpointNotFound`
from `Session.get_endpoint`, or `glanceclient.exc.InvalidEndpoint` from
building the glance client); `listResult` is what `self.list()` does
(source line 184/193); `deleteAttempt i a` tells whether the `a`-th
attempt of deleting the `i`-th listed handle succeeds. -/
structure KindBehavior where
  construct : Option PyExc
  listResult : Except PyExc (List Nat)
  deleteAttempt : Nat → Nat → Bool

/-- The deletion loop of `Resources.purge` (source lines 187-188): each
handle is deleted through `retry(c_name)`; a successful retry yields a
`deleted` event, an exhausted retry raises `DeletionFailed(c_name)` and
stops the loop. -/
def purgeDeletes (k : Kind) (deleteAttempt : Nat → Nat → Bool) :
    List Nat → Nat → List Event × Option PyExc
  | [], _ => ([], none)
  | h :: rest, i =>
    match (retry (kindName k) (fun a => if deleteAttempt i a then some () else none)).result with
    | Except.ok _ =>
      match purgeDeletes k deleteAttempt rest (i + 1) with
      | (evts, exc) => (Event.deleted k h :: evts, exc)
    | Except.error name => ([], some (PyExc.deletionFailed name))

/-- One iteration of the `perform_on_project` loop body for kind `k`
(source lines 603-607): construct the resource class, then run
`purge()` (source lines 181-188) or `dump()` (source lines 190-198).
Returns the events produced and the exception escaping the body, if
any. -/
def runKind (mode : Mode) (k : Kind) (b : KindBehavior) : List Event × Option PyExc :=
  match b.construct with
  | some e => ([], some e)
  | none =>
    match b.listResult with
    | Except.error e => ([], some e)
    | Except.ok handles =>
      match mode with
      | Mode.dump => (handles.map (fun h => Event.dumped k h), none)
      | Mode.purge => purgeDeletes k b.deleteAttempt handles 0

/-- The exception escaping the loop body for kind `k`. -/
def kindExc (mode : Mode) (behavior : Kind → KindBehavior) (k : Kind) : Option PyExc :=
  (runKind mode k (behavior k)).2

/-- The events produced by the loop body for kind `k`. -/
def kindEvts (mode : Mode) (behavior : Kind → KindBehavior) (k : Kind) : List Event :=
  (runKind mode k (behavior k)).1

/-- Concatenation of the events of a list of kinds, in order. -/
def evtsOfList (mode : Mode) (behavior : Kind → KindBehavior) : List Kind → List Event
  | [] => []
  | k :: rest => kindEvts mode behavior k ++ evtsOfList mode behavior rest

/-- How `perform_on_project` ends (source lines 608-621): success, the
aggregate `InvalidEndpoint(rc)` raised after the loop (line 619-621),
the uncaught `DeletionFailed` from `retry`, or any other uncaught
exception propagating out of the loop. -/
inductive RunError where
  | deletionFailed (serviceName : String)
  | invalidEndpoint (kind : Kind)
  | propagated (e : PyExc)
deriving DecidableEq

instance {ε α : Type} [DecidableEq ε] [DecidableEq α] : DecidableEq (Except ε α) := fun
  | Except.ok a, Except.ok b => decidable_of_iff (a = b) (by simp)
  | Except.error a, Except.error b => decidable_of_iff (a = b) (by simp)
  | Except.ok _, Except.error _ => isFalse (fun h => Except.noConfusion h)
  | Except.error _, Except.ok _ => isFalse (fun h => Except.noConfusion h)

/-- Result of one `perform_on_project` run: the events performed, the
kinds whose loop body was entered (in order), and the final outcome. -/
structure PerformResult where
  trace : List Event
  started : List Kind
  result : Except RunError Unit
deriving DecidableEq

/-- The loop of `perform_on_project` (source lines 601-621).  `err` is
the `error` variable of the source: the last `InvalidEndpoint(rc)`
recorded, raised after the loop if set.  The `EndpointNotFound` family
and `ResourceNotEnabled` are passed over (lines 608-615); the
ceilometer/glance `InvalidEndpoint` records a soft failure and
continues (lines 616-619); everything else escapes the loop at once. -/
def performAux (mode : Mode) (behavior : Kind → KindBehavior) :
    List Kind → List Event → List Kind → Option Kind → PerformResult
  | [], evts, started, err =>
    match err with
    | some k => ⟨evts, started, Except.error (RunError.invalidEndpoint k)⟩
    | none => ⟨evts, started, Except.ok ()⟩
  | k :: rest, evts, started, err =>
    match kindExc mode behavior k with
    | none =>
      performAux mode behavior rest (evts ++ kindEvts mode behavior k) (started ++ [k]) err
    | some PyExc.endpointNotFound =>
      performAux mode behavior rest (evts ++ kindEvts mode behavior k) (started ++ [k]) err
    | some PyExc.resourceNotEnabled =>
      performAux mode behavior rest (evts ++ kindEvts mode behavior k) (started ++ [k]) err
    | some PyExc.invalidEndpoint =>
      performAux mode behavior rest (evts ++ kindEvts mode behavior k) (started ++ [k]) (some k)
    | some (PyExc.deletionFailed name) =>
      ⟨evts ++ kindEvts mode behavior k, started ++ [k],
        Except.error (RunError.deletionFailed name)⟩
    | some PyExc.connectionError =>
      ⟨evts ++ kindEvts mode behavior k, started ++ [k],
        Except.error (RunError.propagated PyExc.connectionError)⟩
    | some PyExc.otherError =>
      ⟨evts ++ kindEvts mode behavior k, started ++ [k],
        Except.error (RunError.propagated PyExc.otherError)⟩

/-- `perform_on_project` (source lines 592-621), with the backend
behaviour of each kind as explicit input. -/
def performOnProject (mode : Mode) (behavior : Kind → KindBehavior) : PerformResult :=
  performAux mode behavior RESOURCES_CLASSES [] [] none

/-- `True` iff the loop body's exception is absorbed and the loop moves
on to the next kind (source lines 608-619). -/
def continuesAfter : Option PyExc → Bool
  | none => true
  | some PyExc.endpointNotFound => true
  | some PyExc.resourceNotEnabled => true
  | some PyExc.invalidEndpoint => true
  | some (PyExc.deletionFailed _) => false
  | some PyExc.connectionError => false
  | some PyExc.otherError => false

/-- `True` iff the exception records a soft failure (`error =
InvalidEndpoint(rc)`, source line 619). -/
def isSoft : Option PyExc → Bool
  | some PyExc.invalidEndpoint => true
  | _ => false

/-- The `error` variable after absorbing a list of kinds: the last kind
of the list whose body raised a client `InvalidEndpoint`, if any. -/
def lastSoftIn (mode : Mode) (behavior : Kind → KindBehavior) :
    List Kind → Option Kind → Option Kind
  | [], err => err
  | k :: rest, err =>
    lastSoftIn mode behavior rest
      (if isSoft (kindExc mode behavior k) then some k else err)

/-- Behaviour where every kind constructs, lists nothing and deletes
successfully. -/
def c1Behavior : Kind → KindBehavior :=
  fun _ => ⟨none, Except.ok [], fun _ _ => true⟩

/-- Call that fails on attempts 0..9 and succeeds on attempt 10. -/
def c2CallTenFailures : Nat → Option Nat :=
  fun i => if i < 10 then none else some 7

/-- Call that fails on every attempt. -/
def c2CallAlwaysFails : Nat → Option Nat :=
  fun _ => none

/-- Behaviour where deleting the one listed server never succeeds and
every other kind lists nothing. -/
def c5Behavior : Kind → KindBehavior :=
  fun k =>
    match k with
    | Kind.novaServers => ⟨none, Except.ok [7], fun _ _ => false⟩
    | _ => ⟨none, Except.ok [], fun _ _ => true⟩

/-- Behaviour where security-group listing raises `ResourceNotEnabled`
and every other kind lists nothing. -/
def c6Behavior : Kind → KindBehavior :=
  fun k =>
    match k with
    | Kind.neutronSecgroups => ⟨none, Except.error PyExc.resourceNotEnabled, fun _ _ => true⟩
    | _ => ⟨none, Except.ok [], fun _ _ => true⟩

/-- Behaviour where the server and image clients both raise a client
`InvalidEndpoint` at construction and every other kind lists nothing. -/
def c7Behavior : Kind → KindBehavior :=
  fun k =>
    match k with
    | Kind.novaServers => ⟨some PyExc.invalidEndpoint, Except.ok [], fun _ _ => true⟩
    | Kind.glanceImages => ⟨some PyExc.invalidEndpoint, Except.ok [], fun _ _ => true⟩
    | _ => ⟨none, Except.ok [], fun _ _ => true⟩

/-- Behaviour where only the image client raises `InvalidEndpoint` and
every other kind lists nothing. -/
def c8Behavior : Kind → KindBehavior :=
  fun k =>
    match k with
    | Kind.glanceImages => ⟨some PyExc.invalidEndpoint, Except.ok [], fun _ _ => true⟩
    | _ => ⟨none, Except.ok [], fun _ _ => true⟩

/-- A glance image record: the fields `GlanceImages` reads (source
lines 479-489). -/
structure Image where
  id : String
  owner : String
deriving DecidableEq

/-- `GlanceImages._owned_resource` (source lines 487-489): only images
whose `owner` is the session's project id are considered. -/
def glanceOwnedResource (projectId : String) (res : Image) : Bool :=
  res.owner == projectId

/-- `GlanceImages.list` (source lines 473-477): on success, the owned
images; on any exception from the backend enumeration, the bare
`except:` returns the empty string `''`, which iterates as an empty
collection — no exception ever escapes. -/
def glanceImagesList (projectId : String) (backend : Except PyExc (List Image)) :
    Except PyExc (List Image) :=
  match backend with
  | Except.ok imgs => Except.ok (imgs.filter (glanceOwnedResource projectId))
  | Except.error _ => Except.ok []

/-- Behaviour induced for the image kind by a failing listing: the
glance client was built (no constructor exception) and `list()`
returned the empty result. -/
def c9Behavior : KindBehavior :=
  ⟨none, Except.ok [], fun _ _ => true⟩

/-- A neutron security-group record: the fields `NeutronSecgroups`
reads (source lines 401-423). -/
structure Secgroup where
  id : String
  name : String
  tenant_id : String
deriving DecidableEq

/-- `NeutronResources._owned_resource` (source lines 317-319),
specialised to security groups: only resources whose `tenant_id` is
the session's project id are considered. -/
def neutronOwnedResource (projectId : String) (res : Secgroup) : Bool :=
  res.tenant_id == projectId

/-- `secgroup_filter` inside `NeutronSecgroups.list` (source lines
403-406): drop the group named `default`, keep only owned groups. -/
def secgroupFilter (projectId : String) (sg : Secgroup) : Bool :=
  if sg.name == "default" then false
  else neutronOwnedResource projectId sg

/-- `NeutronSecgroups.list` (source lines 401-414): on success the
filtered groups; on a `NeutronClientException` whose `status_code` is
404 raise `ResourceNotEnabled`; re-raise anything else.  A backend
error is modelled by its optional `status_code`. -/
def neutronSecgroupsList (projectId : String)
    (backend : Except (Option Nat) (List Secgroup)) : Except PyExc (List Secgroup) :=
  match backend with
  | Except.ok sgs => Except.ok (sgs.filter (secgroupFilter projectId))
  | Except.error statusCode =>
    if statusCode == some 404 then Except.error PyExc.resourceNotEnabled
    else Except.error PyExc.otherError

/-- A backend answer holding the default group, an owned group and a
foreign group. -/
def c10Backend : Except (Option Nat) (List Secgroup) :=
  Except.ok [⟨"sg1", "default", "p1"⟩, ⟨"sg2", "web", "p1"⟩, ⟨"sg3", "web", "p2"⟩]

/-- The exceptions `main` catches around `perform_on_project` (source
lines 754-760): `ConnectionError` exits with code 5, `DeletionFailed`
and `InvalidEndpoint` exit with code 4. -/
inductive MainErr where
  | connectionError
  | deletionFailed
  | invalidEndpoint
deriving DecidableEq

/-- Inputs determining the post-authentication part of `main` (source
lines 720-772), the project lookup having succeeded: the CLI flags
`--own-project`, `--dry-run`, `--dont-delete-project`, whether
`become_project_admin` raised the benign `Conflict` (the caller was
already project-admin, line 728), whether `tenant_info.enabled` was
true before the run (line 735), and what `perform_on_project` did. -/
structure MainEnv where
  ownProject : Bool
  dryRun : Bool
  dontDeleteProject : Bool
  grantConflict : Bool
  projectEnabled : Bool
  purgeOutcome : Option MainErr

/-- Observable actions of `main` (source lines 720-772), in program
order: the grant attempt (line 727), enabling the project (line 739),
running `perform_on_project` (line 751), deleting the project (line
763), disabling it again (line 768), revoking the granted role (line
771), and process exit with a status code. -/
inductive MainAction where
  | grantAdmin
  | enableProject
  | performAction (mode : Mode)
  | deleteProject
  | disableProject
  | revokeAdmin
  | exitCode (code : Nat)
deriving DecidableEq

/-- The action sequence of `main` after authentication (source lines
720-772).  When `perform_on_project` raises, `main` prints and calls
`sys.exit` inside the handler (lines 754-760): execution never reaches
lines 762-771, so no disable and no revoke happen on those paths. -/
def mainRun (env : MainEnv) : List MainAction :=
  let elevate : List MainAction :=
    if env.ownProject then []
    else
      [MainAction.grantAdmin] ++
        (if env.projectEnabled then [] else [MainAction.enableProject])
  let mode := if env.dryRun then Mode.dump else Mode.purge
  let removeAdminRoleAfterPurge := !env.ownProject && !env.grantConflict
  let disableProjectAfterPurge := !env.ownProject && !env.projectEnabled
  match env.purgeOutcome with
  | some MainErr.connectionError =>
    elevate ++ [MainAction.performAction mode, MainAction.exitCode 5]
  | some MainErr.deletionFailed =>
    elevate ++ [MainAction.performAction mode, MainAction.exitCode 4]
  | some MainErr.invalidEndpoint =>
    elevate ++ [MainAction.performAction mode, MainAction.exitCode 4]
  | none =>
    elevate ++ [MainAction.performAction mode] ++
      (if !env.dryRun && !env.dontDeleteProject && !env.ownProject then
        [MainAction.deleteProject, MainAction.exitCode 0]
      else
        (if disableProjectAfterPurge then [MainAction.disableProject] else []) ++
          (if removeAdminRoleAfterPurge then [MainAction.revokeAdmin] else []) ++
          [MainAction.exitCode 0])

/-- `True` iff the run reached the purge step. -/
def reachedPurge (l : List MainAction) : Bool :=
  l.any (fun a =>
    match a with
    | MainAction.performAction _ => true
    | _ => false)

/-- A run that newly granted the admin role and enabled the project,
kept the project (`--dont-delete-project`), and whose purge step raised
`DeletionFailed`. -/
def c3Env : MainEnv :=
  ⟨false, false, true, false, false, some MainErr.deletionFailed⟩

theorem retryAux_zero {α : Type} (service : String) (call : Nat → Option α)
    (attempt : Nat) (sleeps : List Nat) :
    retryAux service call 0 attempt sleeps =
      match call attempt with
      | some v => ⟨Except.ok v, sleeps⟩
      | none => ⟨Except.error service, sleeps⟩ := by
  rw [retryAux]

theorem retryAux_succ {α : Type} (service : String) (call : Nat → Option α)
    (r attempt : Nat) (sleeps : List Nat) :
    retryAux service call (r + 1) attempt sleeps =
      match call attempt with
      | some v => ⟨Except.ok v, sleeps⟩
      | none => retryAux service call r (attempt + 1) (sleeps ++ [TIMEOUT]) := by
  rw [retryAux]

theorem retryAux_call_some {α : Type} {service : String} {call : Nat → Option α}
    {attempt : Nat} {v : α} (h : call attempt = some v)
    (remaining : Nat) (sleeps : List Nat) :
    retryAux service call remaining attempt sleeps = ⟨Except.ok v, sleeps⟩ := by
  cases remaining with
  | zero => rw [retryAux_zero, h]
  | succ r => rw [retryAux_succ, h]

theorem retryAux_all_fail {α : Type} (service : String) (call : Nat → Option α) :
    ∀ remaining attempt sleeps, (∀ i, i ≤ remaining → call (attempt + i) = none) →
      retryAux service call remaining attempt sleeps =
        ⟨Except.error service, sleeps ++ List.replicate remaining TIMEOUT⟩ := by
  intro remaining
  induction remaining with
  | zero =>
    intro attempt sleeps h
    have h0 : call attempt = none := by simpa using h 0 (Nat.le_refl 0)
    rw [retryAux_zero, h0]
    simp
  | succ r ih =>
    intro attempt sleeps h
    have h0 : call attempt = none := by simpa using h 0 (Nat.zero_le _)
    have hrec := ih (attempt + 1) (sleeps ++ [TIMEOUT])
      (fun i hi => by
        have := h (i + 1) (Nat.succ_le_succ hi)
        simpa [Nat.add_assoc, Nat.add_comm 1 i] using this)
    rw [retryAux_succ, h0, hrec]
    simp [List.replicate_succ, List.append_assoc]

theorem retryAux_fail_then_ok {α : Type} (service : String) (call : Nat → Option α)
    (v : α) :
    ∀ k remaining attempt sleeps, (∀ i, i < k → call (attempt + i) = none) →
      call (attempt + k) = some v → k ≤ remaining →
      retryAux service call remaining attempt sleeps =
        ⟨Except.ok v, sleeps ++ List.replicate k TIMEOUT⟩ := by
  intro k
  induction k with
  | zero =>
    intro remaining attempt sleeps _ hok _
    have h0 : call attempt = some v := by simpa using hok
    rw [retryAux_call_some h0]
    simp
  | succ m ih =>
    intro remaining attempt sleeps hfail hok hle
    have h0 : call attempt = none := by simpa using hfail 0 (Nat.succ_pos m)
    obtain ⟨r, rfl⟩ : ∃ r, remaining = r + 1 := by
      cases remaining with
      | zero => exact absurd hle (by omega)
      | succ r => exact ⟨r, rfl⟩
    have hrec := ih r (attempt + 1) (sleeps ++ [TIMEOUT])
      (fun i hi => by
        have := hfail (i + 1) (Nat.succ_lt_succ hi)
        simpa [Nat.add_assoc, Nat.add_comm 1 i] using this)
      (by
        have : attempt + 1 + m = attempt + (m + 1) := by omega
        rw [this]; exact hok)
      (by omega)
    rw [retryAux_succ, h0, hrec]
    simp [List.replicate_succ, List.append_assoc]

/-- The error raised by `retry` always names the service it was given. -/
theorem retryAux_error_name {α : Type} (service : String) (call : Nat → Option α) :
    ∀ remaining attempt sleeps n,
      (retryAux service call remaining attempt sleeps).result = Except.error n →
      n = service := by
  intro remaining
  induction remaining with
  | zero =>
    intro attempt sleeps n h
    cases hcall : call attempt with
    | some v => rw [retryAux_zero, hcall] at h; simp at h
    | none => rw [retryAux_zero, hcall] at h; simpa using h.symm
  | succ r ih =>
    intro attempt sleeps n h
    cases hcall : call attempt with
    | some v => rw [retryAux_succ, hcall] at h; simp at h
    | none =>
      rw [retryAux_succ, hcall] at h
      exact ih (attempt + 1) (sleeps ++ [TIMEOUT]) n h

theorem performAux_nil (mode : Mode) (behavior : Kind → KindBehavior)
    (evts : List Event) (started : List Kind) (err : Option Kind) :
    performAux mode behavior [] evts started err =
      match err with
      | some k => ⟨evts, started, Except.error (RunError.invalidEndpoint k)⟩
      | none => ⟨evts, started, Except.ok ()⟩ := by
  rw [performAux.eq_def]

theorem performAux_cons (mode : Mode) (behavior : Kind → KindBehavior)
    (k : Kind) (rest : List Kind) (evts : List Event) (started : List Kind)
    (err : Option Kind) :
    performAux mode behavior (k :: rest) evts started err =
      match kindExc mode behavior k with
      | none =>
        performAux mode behavior rest (evts ++ kindEvts mode behavior k) (started ++ [k]) err
      | some PyExc.endpointNotFound =>
        performAux mode behavior rest (evts ++ kindEvts mode behavior k) (started ++ [k]) err
      | some PyExc.resourceNotEnabled =>
        performAux mode behavior rest (evts ++ kindEvts mode behavior k) (started ++ [k]) err
      | some PyExc.invalidEndpoint =>
        performAux mode behavior rest (evts ++ kindEvts mode behavior k) (started ++ [k]) (some k)
      | some (PyExc.deletionFailed name) =>
        ⟨evts ++ kindEvts mode behavior k, started ++ [k],
          Except.error (RunError.deletionFailed name)⟩
      | some PyExc.connectionError =>
        ⟨evts ++ kindEvts mode behavior k, started ++ [k],
          Except.error (RunError.propagated PyExc.connectionError)⟩
      | some PyExc.otherError =>
        ⟨evts ++ kindEvts mode behavior k, started ++ [k],
          Except.error (RunError.propagated PyExc.otherError)⟩ := by
  rw [performAux.eq_def]

/-- Absorbing a block of kinds that all continue: events and started
kinds accumulate in order, and the recorded soft failure becomes the
last soft-failing kind of the block. -/
theorem performAux_continues (mode : Mode) (behavior : Kind → KindBehavior) :
    ∀ (l rest : List Kind) (evts : List Event) (started : List Kind) (err : Option Kind),
      (∀ j ∈ l, continuesAfter (kindExc mode behavior j) = true) →
      performAux mode behavior (l ++ rest) evts started err =
        performAux mode behavior rest (evts ++ evtsOfList mode behavior l)
          (started ++ l) (lastSoftIn mode behavior l err) := by
  intro l
  induction l with
  | nil =>
    intro rest evts started err _
    simp [evtsOfList, lastSoftIn]
  | cons k tl ih =>
    intro rest evts started err h
    have hk : continuesAfter (kindExc mode behavior k) = true := h k (by simp)
    have htl : ∀ j ∈ tl, continuesAfter (kindExc mode behavior j) = true :=
      fun j hj => h j (by simp [hj])
    rw [List.cons_append, performAux_cons]
    cases hke : kindExc mode behavior k with
    | none =>
      rw [ih rest _ _ err htl]
      simp [evtsOfList, lastSoftIn, hke, isSoft, List.append_assoc]
    | some e =>
      cases e with
      | endpointNotFound =>
        rw [ih rest _ _ err htl]
        simp [evtsOfList, lastSoftIn, hke, isSoft, List.append_assoc]
      | resourceNotEnabled =>
        rw [ih rest _ _ err htl]
        simp [evtsOfList, lastSoftIn, hke, isSoft, List.append_assoc]
      | invalidEndpoint =>
        rw [ih rest _ _ (some k) htl]
        simp [evtsOfList, lastSoftIn, hke, isSoft, List.append_assoc]
      | deletionFailed name => rw [hke] at hk; simp [continuesAfter] at hk
      | connectionError => rw [hke] at hk; simp [continuesAfter] at hk
      | otherError => rw [hke] at hk; simp [continuesAfter] at hk

/-- If no kind of the block soft-fails, the recorded soft failure is
unchanged. -/
theorem lastSoftIn_no_soft (mode : Mode) (behavior : Kind → KindBehavior) :
    ∀ (l : List Kind) (err : Option Kind),
      (∀ j ∈ l, isSoft (kindExc mode behavior j) = false) →
      lastSoftIn mode behavior l err = err := by
  intro l
  induction l with
  | nil => intro err _; rfl
  | cons k tl ih =>
    intro err h
    have hk : isSoft (kindExc mode behavior k) = false := h k (by simp)
    rw [lastSoftIn, hk]
    exact ih err (fun j hj => h j (by simp [hj]))

theorem purgeDeletes_nil (k : Kind) (d : Nat → Nat → Bool) (i : Nat) :
    purgeDeletes k d [] i = ([], none) := by
  rw [purgeDeletes.eq_def]

theorem purgeDeletes_cons (k : Kind) (d : Nat → Nat → Bool) (h : Nat)
    (rest : List Nat) (i : Nat) :
    purgeDeletes k d (h :: rest) i =
      match (retry (kindName k) (fun a => if d i a then some () else none)).result with
      | Except.ok _ =>
        match purgeDeletes k d rest (i + 1) with
        | (evts, exc) => (Event.deleted k h :: evts, exc)
      | Except.error name => ([], some (PyExc.deletionFailed name)) := by
  rw [purgeDeletes.eq_def]

/-- `retry` can only raise `DeletionFailed(service)` for the service it
was given. -/
theorem retry_error_name {α : Type} (service : String) (call : Nat → Option α)
    (n : String) (h : (retry service call).result = Except.error n) : n = service :=
  retryAux_error_name service call RETRIES 0 [] n h

/-- The deletion loop either finishes without exception or raises
`DeletionFailed` with the class name of its kind. -/
theorem purgeDeletes_exc (k : Kind) (d : Nat → Nat → Bool) :
    ∀ (handles : List Nat) (i : Nat),
      (purgeDeletes k d handles i).2 = none ∨
      (purgeDeletes k d handles i).2 = some (PyExc.deletionFailed (kindName k)) := by
  intro handles
  induction handles with
  | nil => intro i; left; rw [purgeDeletes_nil]
  | cons h rest ih =>
    intro i
    rw [purgeDeletes_cons]
    cases hr : (retry (kindName k) (fun a => if d i a then some () else none)).result with
    | ok v =>
      cases hrec : purgeDeletes k d rest (i + 1) with
      | mk evts exc =>
        have := ih (i + 1)
        rw [hrec] at this
        simpa using this
    | error name =>
      right
      have := retry_error_name _ _ _ hr
      simp [this]

/-- Every event of the deletion loop belongs to its kind. -/
theorem purgeDeletes_evts_kind (k : Kind) (d : Nat → Nat → Bool) :
    ∀ (handles : List Nat) (i : Nat) (e : Event),
      e ∈ (purgeDeletes k d handles i).1 → e.kindOf = k := by
  intro handles
  induction handles with
  | nil => intro i e he; rw [purgeDeletes_nil] at he; simp at he
  | cons h rest ih =>
    intro i e he
    rw [purgeDeletes_cons] at he
    cases hr : (retry (kindName k) (fun a => if d i a then some () else none)).result with
    | ok v =>
      rw [hr] at he
      cases hrec : purgeDeletes k d rest (i + 1) with
      | mk evts exc =>
        rw [hrec] at he
        simp at he
        rcases he with rfl | he
        · rfl
        · have := ih (i + 1) e
          rw [hrec] at this
          exact this he
    | error name => rw [hr] at he; simp at he

/-- Every event produced by one loop-body run belongs to its kind. -/
theorem runKind_evts_kind (mode : Mode) (k : Kind) (b : KindBehavior) :
    ∀ e ∈ (runKind mode k b).1, e.kindOf = k := by
  obtain ⟨c, lr, d⟩ := b
  cases c with
  | some exc => intro e he; simp [runKind] at he
  | none =>
    cases lr with
    | error exc => intro e he; simp [runKind] at he
    | ok handles =>
      cases mode with
      | dump =>
        intro e he
        simp [runKind] at he
        obtain ⟨h, _, rfl⟩ := he
        rfl
      | purge =>
        intro e he
        exact purgeDeletes_evts_kind k d handles 0 e (by simpa [runKind] using he)

/-- A loop body that raises anything but `DeletionFailed` produced no
event: such exceptions come from the constructor or from `list()`,
which run before any deletion or display. -/
theorem runKind_no_evts (mode : Mode) (k : Kind) (b : KindBehavior) (e : PyExc)
    (hexc : (runKind mode k b).2 = some e)
    (hnotdf : ∀ name, e ≠ PyExc.deletionFailed name) :
    (runKind mode k b).1 = [] := by
  obtain ⟨c, lr, d⟩ := b
  cases c with
  | some exc => simp [runKind]
  | none =>
    cases lr with
    | error exc => simp [runKind]
    | ok handles =>
      cases mode with
      | dump => simp [runKind] at hexc
      | purge =>
        simp only [runKind] at hexc ⊢
        rcases purgeDeletes_exc k d handles 0 with hshape | hshape
        · rw [hshape] at hexc; simp at hexc
        · rw [hshape] at hexc
          simp at hexc
          exact absurd hexc.symm (hnotdf _)

theorem getLast?_cons_or {α : Type} (a : α) (l : List α) :
    (a :: l).getLast? =
      match l.getLast? with
      | some m => some m
      | none => some a := by
  cases l with
  | nil => simp
  | cons b tl =>
    rw [List.getLast?_cons_cons]
    obtain ⟨m, hm⟩ := Option.isSome_iff_exists.mp
      (List.getLast?_isSome.mpr (by simp : (b :: tl) ≠ []))
    rw [hm]

/-- The `error` variable after a block is exactly the last kind of the
block whose body soft-failed, falling back to the previous value. -/
theorem lastSoftIn_filter (mode : Mode) (behavior : Kind → KindBehavior) :
    ∀ (l : List Kind) (err : Option Kind),
      lastSoftIn mode behavior l err =
        match (l.filter (fun j => isSoft (kindExc mode behavior j))).getLast? with
        | some m => some m
        | none => err := by
  intro l
  induction l with
  | nil => intro err; simp [lastSoftIn]
  | cons k tl ih =>
    intro err
    rw [lastSoftIn, ih]
    by_cases hk : isSoft (kindExc mode behavior k) = true
    · have hf : List.filter (fun j => isSoft (kindExc mode behavior j)) (k :: tl) =
          k :: List.filter (fun j => isSoft (kindExc mode behavior j)) tl := by
        simp [List.filter_cons, hk]
      rw [if_pos hk, hf, getLast?_cons_or]
      cases (tl.filter (fun j => isSoft (kindExc mode behavior j))).getLast? with
      | some m => rfl
      | none => rfl
    · have hk2 : isSoft (kindExc mode behavior k) = false := by simpa using hk
      have hf : List.filter (fun j => isSoft (kindExc mode behavior j)) (k :: tl) =
          List.filter (fun j => isSoft (kindExc mode behavior j)) tl := by
        simp [List.filter_cons, hk2]
      rw [if_neg hk, hf]

/-- Whatever the behaviour, the loop enters kinds in plan order: the
kinds started are an initial segment of the remaining plan, and the
segment is the whole plan unless the loop aborted. -/
theorem performAux_shape (mode : Mode) (behavior : Kind → KindBehavior) :
    ∀ (l : List Kind) (evts : List Event) (started : List Kind) (err : Option Kind),
      ∃ l₁ l₂, l = l₁ ++ l₂ ∧
        (performAux mode behavior l evts started err).started = started ++ l₁ ∧
        (((performAux mode behavior l evts started err).result = Except.ok () ∨
          ∃ k, (performAux mode behavior l evts started err).result =
            Except.error (RunError.invalidEndpoint k)) → l₂ = []) := by
  intro l
  induction l with
  | nil =>
    intro evts started err
    refine ⟨[], [], by simp, ?_, fun _ => rfl⟩
    rw [performAux_nil]
    cases err <;> simp
  | cons k tl ih =>
    intro evts started err
    rw [performAux_cons]
    cases hke : kindExc mode behavior k with
    | none =>
      obtain ⟨l₁, l₂, heq, hstart, habort⟩ :=
        ih (evts ++ kindEvts mode behavior k) (started ++ [k]) err
      exact ⟨k :: l₁, l₂, by simp [heq], by simpa [List.append_assoc] using hstart,
        habort⟩
    | some e =>
      cases e with
      | endpointNotFound =>
        obtain ⟨l₁, l₂, heq, hstart, habort⟩ :=
          ih (evts ++ kindEvts mode behavior k) (started ++ [k]) err
        exact ⟨k :: l₁, l₂, by simp [heq], by simpa [List.append_assoc] using hstart,
          habort⟩
      | resourceNotEnabled =>
        obtain ⟨l₁, l₂, heq, hstart, habort⟩ :=
          ih (evts ++ kindEvts mode behavior k) (started ++ [k]) err
        exact ⟨k :: l₁, l₂, by simp [heq], by simpa [List.append_assoc] using hstart,
          habort⟩
      | invalidEndpoint =>
        obtain ⟨l₁, l₂, heq, hstart, habort⟩ :=
          ih (evts ++ kindEvts mode behavior k) (started ++ [k]) (some k)
        exact ⟨k :: l₁, l₂, by simp [heq], by simpa [List.append_assoc] using hstart,
          habort⟩
      | deletionFailed name =>
        exact ⟨[k], tl, by simp, by simp, by simp⟩
      | connectionError =>
        exact ⟨[k], tl, by simp, by simp, by simp⟩
      | otherError =>
        exact ⟨[k], tl, by simp, by simp, by simp⟩

/-- Membership in the concatenated events of a block of kinds. -/
theorem evtsOfList_mem (mode : Mode) (behavior : Kind → KindBehavior) :
    ∀ (l : List Kind) (e : Event), e ∈ evtsOfList mode behavior l →
      ∃ j, j ∈ l ∧ e ∈ kindEvts mode behavior j := by
  intro l
  induction l with
  | nil => intro e he; simp [evtsOfList] at he
  | cons k tl ih =>
    intro e he
    rw [evtsOfList] at he
    rcases List.mem_append.mp he with hk | htl
    · exact ⟨k, by simp, hk⟩
    · obtain ⟨j, hj, hje⟩ := ih e htl
      exact ⟨j, by simp [hj], hje⟩

/-- Claim C1: in both purge and dump mode, resource kinds are processed
strictly in the fixed order of `RESOURCES_CLASSES` (Snapshots, Backups,
Servers, FloatingIPs, RouterInterfaces, Routers, Ports, Networks,
SecurityGroups, Images, Objects, Containers, Volumes): the kinds
entered are always an initial segment of that fixed list, and whenever
the pass is not aborted by a propagating exception they are exactly
that list.  The order is a fixed constant, hence total, deterministic
and identical for every invocation. -/
theorem c1_plan_order (mode : Mode) (behavior : Kind → KindBehavior) :
    (∃ tail, RESOURCES_CLASSES = (performOnProject mode behavior).started ++ tail) ∧
    (((performOnProject mode behavior).result = Except.ok () ∨
      ∃ k, (performOnProject mode behavior).result =
        Except.error (RunError.invalidEndpoint k)) →
      (performOnProject mode behavior).started = RESOURCES_CLASSES) := by
  obtain ⟨l₁, l₂, heq, hstart, habort⟩ :=
    performAux_shape mode behavior RESOURCES_CLASSES [] [] none
  unfold performOnProject
  constructor
  · refine ⟨l₂, ?_⟩
    rw [hstart]
    rw [heq]
    simp
  · intro hok
    have hl₂ : l₂ = [] := habort hok
    rw [hstart]
    rw [heq, hl₂]
    simp

theorem c1_plan_order_witness :
    (performOnProject Mode.purge c1Behavior).started = RESOURCES_CLASSES :=
  (c1_plan_order Mode.purge c1Behavior).2 (Or.inl (by decide))

/-- Claim C2: with `RETRIES = 10` and fixed backoff `TIMEOUT = 5`, a
call that fails exactly 10 times and then succeeds makes the wrapper
return the call's result without raising, having slept 10 times; a call
that fails 11 consecutive times makes the wrapper raise
`DeletionFailed` naming the kind exactly once, having slept exactly 10
times, every sleep being the same fixed `TIMEOUT` (no exponential
growth). -/
theorem c2_retry_policy {α : Type} (callA callB : Nat → Option α) (v : α)
    (service : String)
    (hA1 : ∀ i, i < RETRIES → callA i = none) (hA2 : callA RETRIES = some v)
    (hB : ∀ i, i ≤ RETRIES → callB i = none) :
    RETRIES = 10 ∧ TIMEOUT = 5 ∧
    retry service callA = ⟨Except.ok v, List.replicate RETRIES TIMEOUT⟩ ∧
    retry service callB = ⟨Except.error service, List.replicate RETRIES TIMEOUT⟩ := by
  refine ⟨rfl, rfl, ?_, ?_⟩
  · unfold retry
    have h := retryAux_fail_then_ok service callA v RETRIES RETRIES 0 []
      (fun i hi => by simpa using hA1 i hi) (by simpa using hA2) (Nat.le_refl _)
    simpa using h
  · unfold retry
    have h := retryAux_all_fail service callB RETRIES 0 []
      (fun i hi => by simpa using hB i hi)
    simpa using h

theorem c2_retry_policy_witness :
    retry "NovaServers" c2CallTenFailures =
      ⟨Except.ok 7, List.replicate RETRIES TIMEOUT⟩ ∧
    retry "NovaServers" c2CallAlwaysFails =
      ⟨Except.error "NovaServers", List.replicate RETRIES TIMEOUT⟩ := by
  have h := c2_retry_policy c2CallTenFailures c2CallAlwaysFails 7 "NovaServers"
    (fun i hi => by
      simp only [c2CallTenFailures]
      rw [if_pos (by simpa [RETRIES] using hi)])
    (by simp [c2CallTenFailures, RETRIES])
    (fun i _ => rfl)
  exact ⟨h.2.2.1, h.2.2.2⟩

/-- Claim C5: when the delete of some kind exhausts its retry budget
and `DeletionFailed` is raised, `perform_on_project` propagates it
immediately: the failing kind is the last one entered, no later kind of
the plan is attempted, and the final trace still ends with exactly the
deletions performed before the failure — nothing is rolled back. -/
theorem c5_deletion_failed_aborts (behavior : Kind → KindBehavior)
    (before : List Kind) (k : Kind) (after : List Kind) (evts : List Event)
    (name : String)
    (hplan : RESOURCES_CLASSES = before ++ k :: after)
    (hbefore : ∀ j ∈ before, kindExc Mode.purge behavior j = none)
    (hk : runKind Mode.purge k (behavior k) = (evts, some (PyExc.deletionFailed name))) :
    (performOnProject Mode.purge behavior).result =
      Except.error (RunError.deletionFailed name) ∧
    (performOnProject Mode.purge behavior).started = before ++ [k] ∧
    (performOnProject Mode.purge behavior).trace =
      evtsOfList Mode.purge behavior before ++ evts := by
  have hke : kindExc Mode.purge behavior k = some (PyExc.deletionFailed name) := by
    unfold kindExc; rw [hk]
  have hkevts : kindEvts Mode.purge behavior k = evts := by
    unfold kindEvts; rw [hk]
  unfold performOnProject
  rw [hplan]
  rw [performAux_continues Mode.purge behavior before (k :: after) [] [] none
    (fun j hj => by rw [hbefore j hj]; rfl)]
  rw [lastSoftIn_no_soft Mode.purge behavior before none
    (fun j hj => by rw [hbefore j hj]; rfl)]
  rw [performAux_cons, hke, hkevts]
  simp

theorem c5_deletion_failed_aborts_witness :
    (performOnProject Mode.purge c5Behavior).result =
      Except.error (RunError.deletionFailed "NovaServers") ∧
    (performOnProject Mode.purge c5Behavior).started =
      [Kind.cinderSnapshots, Kind.cinderBackups] ++ [Kind.novaServers] := by
  have h := c5_deletion_failed_aborts c5Behavior
    [Kind.cinderSnapshots, Kind.cinderBackups] Kind.novaServers
    [Kind.neutronFloatingIps, Kind.neutronInterfaces, Kind.neutronRouters,
     Kind.neutronPorts, Kind.neutronNetworks, Kind.neutronSecgroups,
     Kind.glanceImages, Kind.swiftObjects, Kind.swiftContainers,
     Kind.cinderVolumes]
    [] "NovaServers" rfl (by decide) (by decide)
  exact ⟨h.1, h.2.1⟩

/-- Claim C6: a kind whose processing raises `ResourceNotEnabled` or an
endpoint-not-found error contributes zero deletions, is skipped
silently, and every other kind is still processed; when no other kind
fails the run returns success. -/
theorem c6_not_enabled_skipped (mode : Mode) (behavior : Kind → KindBehavior)
    (k : Kind)
    (hk : kindExc mode behavior k = some PyExc.resourceNotEnabled ∨
          kindExc mode behavior k = some PyExc.endpointNotFound)
    (hothers : ∀ j ∈ RESOURCES_CLASSES, j ≠ k → kindExc mode behavior j = none) :
    (performOnProject mode behavior).started = RESOURCES_CLASSES ∧
    (performOnProject mode behavior).result = Except.ok () ∧
    ∀ e ∈ (performOnProject mode behavior).trace, e.kindOf ≠ k := by
  have hcont : ∀ j ∈ RESOURCES_CLASSES, continuesAfter (kindExc mode behavior j) = true := by
    intro j hj
    by_cases hjk : j = k
    · subst hjk
      rcases hk with h | h <;> rw [h] <;> rfl
    · rw [hothers j hj hjk]; rfl
  have hnosoft : ∀ j ∈ RESOURCES_CLASSES, isSoft (kindExc mode behavior j) = false := by
    intro j hj
    by_cases hjk : j = k
    · subst hjk
      rcases hk with h | h <;> rw [h] <;> rfl
    · rw [hothers j hj hjk]; rfl
  have hkevts : kindEvts mode behavior k = [] := by
    rcases hk with h | h
    · exact runKind_no_evts mode k (behavior k) PyExc.resourceNotEnabled h
        (fun name hne => PyExc.noConfusion hne)
    · exact runKind_no_evts mode k (behavior k) PyExc.endpointNotFound h
        (fun name hne => PyExc.noConfusion hne)
  unfold performOnProject
  have happ := performAux_continues mode behavior RESOURCES_CLASSES [] [] [] none hcont
  rw [List.append_nil] at happ
  rw [happ, lastSoftIn_no_soft mode behavior _ none hnosoft, performAux_nil]
  refine ⟨by simp, rfl, ?_⟩
  intro e he
  simp only [List.nil_append] at he
  obtain ⟨j, hj, hje⟩ := evtsOfList_mem mode behavior RESOURCES_CLASSES e he
  by_cases hjk : j = k
  · subst hjk
    rw [hkevts] at hje
    simp at hje
  · rw [runKind_evts_kind mode j (behavior j) e hje]
    exact hjk

theorem c6_not_enabled_skipped_witness :
    (performOnProject Mode.purge c6Behavior).started = RESOURCES_CLASSES ∧
    (performOnProject Mode.purge c6Behavior).result = Except.ok () := by
  have h := c6_not_enabled_skipped Mode.purge c6Behavior Kind.neutronSecgroups
    (Or.inl (by decide)) (by decide)
  exact ⟨h.1, h.2.1⟩

/-- Claim C7: when every kind's exception is absorbed (no propagating
failure), the pass covers the whole plan; if one or more kinds recorded
a soft failure (client `InvalidEndpoint`), the run ends with an error
naming only the last such kind in plan order, and if none did, the run
returns success. -/
theorem c7_soft_failure_aggregate (mode : Mode) (behavior : Kind → KindBehavior)
    (hcont : ∀ j ∈ RESOURCES_CLASSES, continuesAfter (kindExc mode behavior j) = true) :
    (performOnProject mode behavior).started = RESOURCES_CLASSES ∧
    (RESOURCES_CLASSES.filter (fun j => isSoft (kindExc mode behavior j)) = [] →
      (performOnProject mode behavior).result = Except.ok ()) ∧
    (∀ k, (RESOURCES_CLASSES.filter (fun j => isSoft (kindExc mode behavior j))).getLast? =
        some k →
      (performOnProject mode behavior).result =
        Except.error (RunError.invalidEndpoint k)) := by
  unfold performOnProject
  have happ := performAux_continues mode behavior RESOURCES_CLASSES [] [] [] none hcont
  rw [List.append_nil] at happ
  rw [happ, lastSoftIn_filter, performAux_nil]
  cases hlast : (RESOURCES_CLASSES.filter (fun j => isSoft (kindExc mode behavior j))).getLast? with
  | none =>
    refine ⟨by simp, fun _ => rfl, ?_⟩
    intro k hk
    exact Option.noConfusion hk
  | some m =>
    refine ⟨by simp, ?_, ?_⟩
    · intro hempty
      rw [hempty] at hlast
      simp at hlast
    · intro k hk
      have hmk : m = k := by injection hk
      subst hmk
      rfl

theorem c7_soft_failure_aggregate_witness :
    (performOnProject Mode.purge c7Behavior).started = RESOURCES_CLASSES ∧
    (performOnProject Mode.purge c7Behavior).result =
      Except.error (RunError.invalidEndpoint Kind.glanceImages) := by
  have h := c7_soft_failure_aggregate Mode.purge c7Behavior (by decide)
  exact ⟨h.1, h.2.2 Kind.glanceImages (by decide)⟩

/-- Claim C8: if the image backend has an invalid endpoint (the glance
client raises `InvalidEndpoint`) while every other kind succeeds, the
purge run still enters every kind of the plan and then reports failure
naming the image kind. -/
theorem c8_image_invalid_endpoint (behavior : Kind → KindBehavior)
    (hglance : kindExc Mode.purge behavior Kind.glanceImages = some PyExc.invalidEndpoint)
    (hothers : ∀ j ∈ RESOURCES_CLASSES, j ≠ Kind.glanceImages →
      kindExc Mode.purge behavior j = none) :
    (performOnProject Mode.purge behavior).started = RESOURCES_CLASSES ∧
    (performOnProject Mode.purge behavior).result =
      Except.error (RunError.invalidEndpoint Kind.glanceImages) := by
  have hcont : ∀ j ∈ RESOURCES_CLASSES,
      continuesAfter (kindExc Mode.purge behavior j) = true := by
    intro j hj
    by_cases hjk : j = Kind.glanceImages
    · subst hjk; rw [hglance]; rfl
    · rw [hothers j hj hjk]; rfl
  have hfilter : RESOURCES_CLASSES.filter
      (fun j => isSoft (kindExc Mode.purge behavior j)) = [Kind.glanceImages] := by
    have hcongr : ∀ j ∈ RESOURCES_CLASSES,
        isSoft (kindExc Mode.purge behavior j) = decide (j = Kind.glanceImages) := by
      intro j hj
      by_cases hjk : j = Kind.glanceImages
      · subst hjk; rw [hglance]; simp [isSoft]
      · rw [hothers j hj hjk]; simp [isSoft, hjk]
    rw [List.filter_congr hcongr]
    decide
  unfold performOnProject
  have happ := performAux_continues Mode.purge behavior RESOURCES_CLASSES [] [] [] none hcont
  rw [List.append_nil] at happ
  rw [happ, lastSoftIn_filter, hfilter, performAux_nil]
  exact ⟨by simp, rfl⟩

theorem c8_image_invalid_endpoint_witness :
    (performOnProject Mode.purge c8Behavior).started = RESOURCES_CLASSES ∧
    (performOnProject Mode.purge c8Behavior).result =
      Except.error (RunError.invalidEndpoint Kind.glanceImages) :=
  c8_image_invalid_endpoint c8Behavior (by decide) (by decide)

/-- Claim C9: `GlanceImages.list` never propagates any exception — it
always returns a plain list, and on any enumeration error it returns
the empty result; consequently purging the image kind over a failing
listing performs zero deletions and records no exception for the
kind. -/
theorem c9_glance_list_never_raises (projectId : String)
    (backend : Except PyExc (List Image)) (b : KindBehavior) :
    (∃ l, glanceImagesList projectId backend = Except.ok l) ∧
    (∀ e, backend = Except.error e → glanceImagesList projectId backend = Except.ok []) ∧
    (b.construct = none → b.listResult = Except.ok [] →
      runKind Mode.purge Kind.glanceImages b = ([], none)) := by
  refine ⟨?_, ?_, ?_⟩
  · cases backend with
    | ok imgs => exact ⟨imgs.filter (glanceOwnedResource projectId), rfl⟩
    | error e => exact ⟨[], rfl⟩
  · intro e he
    rw [he]
    rfl
  · intro hc hl
    obtain ⟨c, lr, d⟩ := b
    simp only at hc hl
    subst hc
    subst hl
    simp only [runKind]
    exact purgeDeletes_nil Kind.glanceImages d 0

theorem c9_glance_list_never_raises_witness :
    glanceImagesList "p1" (Except.error PyExc.connectionError) = Except.ok [] ∧
    runKind Mode.purge Kind.glanceImages c9Behavior = ([], none) :=
  ⟨(c9_glance_list_never_raises "p1" (Except.error PyExc.connectionError)
      c9Behavior).2.1 PyExc.connectionError rfl,
   (c9_glance_list_never_raises "p1" (Except.error PyExc.connectionError)
      c9Behavior).2.2 rfl rfl⟩

/-- Claim C10: whatever the backend returns, the list produced by
`NeutronSecgroups.list` contains no group named `default` and only
groups whose `tenant_id` equals the session's project id — so a purge,
which deletes only listed resources, never deletes the project's
default security group. -/
theorem c10_default_secgroup_never_deleted (projectId : String)
    (backend : Except (Option Nat) (List Secgroup)) (l : List Secgroup)
    (h : neutronSecgroupsList projectId backend = Except.ok l) :
    ∀ sg ∈ l, sg.name ≠ "default" ∧ sg.tenant_id = projectId := by
  intro sg hsg
  cases backend with
  | ok sgs =>
    simp only [neutronSecgroupsList] at h
    have hl : l = sgs.filter (secgroupFilter projectId) := by
      injection h with h2
      exact h2.symm
    subst hl
    have hf : secgroupFilter projectId sg = true := (List.mem_filter.mp hsg).2
    unfold secgroupFilter neutronOwnedResource at hf
    by_cases hname : sg.name == "default"
    · rw [if_pos hname] at hf
      exact absurd hf (by simp)
    · rw [if_neg hname] at hf
      exact ⟨by simpa using hname, by simpa using hf⟩
  | error statusCode =>
    simp only [neutronSecgroupsList] at h
    by_cases hsc : statusCode == some 404
    · rw [if_pos hsc] at h
      exact Except.noConfusion h
    · rw [if_neg hsc] at h
      exact Except.noConfusion h

theorem c10_default_secgroup_never_deleted_witness :
    neutronSecgroupsList "p1" c10Backend = Except.ok [⟨"sg2", "web", "p1"⟩] ∧
    (⟨"sg2", "web", "p1"⟩ : Secgroup).name ≠ "default" ∧
    (⟨"sg2", "web", "p1"⟩ : Secgroup).tenant_id = "p1" := by
  refine ⟨by decide, ?_⟩
  exact c10_default_secgroup_never_deleted "p1" c10Backend [⟨"sg2", "web", "p1"⟩]
    (by decide) ⟨"sg2", "web", "p1"⟩ (List.mem_singleton.mpr rfl)

/-- Claim C3 counterexample: in the run `c3Env` the workflow both newly
granted the admin role and enabled the project, the purge step raised,
and yet neither the disable-state restoration nor the role revocation
was performed — the unwind does not execute on the failure exit path,
contradicting the claim that it runs on every exit path. -/
theorem c3_unwind_counterexample :
    MainAction.grantAdmin ∈ mainRun c3Env ∧
    MainAction.enableProject ∈ mainRun c3Env ∧
    c3Env.grantConflict = false ∧
    c3Env.purgeOutcome = some MainErr.deletionFailed ∧
    MainAction.revokeAdmin ∉ mainRun c3Env ∧
    MainAction.disableProject ∉ mainRun c3Env := by
  decide

/-- Claim C3 as amended: for a run of the elevation workflow (not
`--own-project`), the unwind executes exactly on the exit path where
the purge step completed without raising and the project is then kept
(dry run or `--dont-delete-project`); when the purge step raises, the
process exits immediately (status 5 for a connection error, 4 for
deletion-failed or invalid-endpoint) without restoring the enabled
state or revoking the role, and when the project is deleted after a
successful purge no unwind is performed either. -/
theorem c3_unwind_scope (dry dont conflict enabled : Bool) (e : MainErr) :
    (MainAction.revokeAdmin ∉ mainRun ⟨false, dry, dont, conflict, enabled, some e⟩ ∧
     MainAction.disableProject ∉ mainRun ⟨false, dry, dont, conflict, enabled, some e⟩ ∧
     (mainRun ⟨false, dry, dont, conflict, enabled, some e⟩).getLast? =
       some (MainAction.exitCode (if e = MainErr.connectionError then 5 else 4))) ∧
    (dry = false → dont = false →
      MainAction.deleteProject ∈ mainRun ⟨false, dry, dont, conflict, enabled, none⟩ ∧
      MainAction.revokeAdmin ∉ mainRun ⟨false, dry, dont, conflict, enabled, none⟩ ∧
      MainAction.disableProject ∉ mainRun ⟨false, dry, dont, conflict, enabled, none⟩) ∧
    ((dry = true ∨ dont = true) →
      (MainAction.revokeAdmin ∈ mainRun ⟨false, dry, dont, conflict, enabled, none⟩ ↔
        conflict = false) ∧
      (MainAction.disableProject ∈ mainRun ⟨false, dry, dont, conflict, enabled, none⟩ ↔
        enabled = false)) := by
  cases dry <;> cases dont <;> cases conflict <;> cases enabled <;> cases e <;> decide

theorem c3_unwind_scope_witness :
    MainAction.revokeAdmin ∉ mainRun c3Env ∧
    MainAction.disableProject ∉ mainRun c3Env ∧
    (mainRun c3Env).getLast? = some (MainAction.exitCode 4) := by
  have h := (c3_unwind_scope false true false false MainErr.deletionFailed).1
  exact ⟨h.1, h.2.1, h.2.2⟩

/-- Claim C4: during the unwind of an elevation-workflow run whose
purge succeeded and whose project is kept, the admin role is revoked
iff the workflow newly granted it (a benign grant conflict counts as
success — the run still reaches the purge — and suppresses the
revoke), the project is disabled again iff it was disabled before the
run, and the disable-state restoration comes before the role
revocation in the action sequence. -/
theorem c4_unwind_exact (dry dont conflict enabled : Bool)
    (hbranch : dry = true ∨ dont = true) :
    (MainAction.revokeAdmin ∈ mainRun ⟨false, dry, dont, conflict, enabled, none⟩ ↔
      conflict = false) ∧
    (MainAction.disableProject ∈ mainRun ⟨false, dry, dont, conflict, enabled, none⟩ ↔
      enabled = false) ∧
    (conflict = true →
      reachedPurge (mainRun ⟨false, dry, dont, conflict, enabled, none⟩) = true) ∧
    (conflict = false → enabled = false →
      ∃ l₁ l₂ l₃, mainRun ⟨false, dry, dont, conflict, enabled, none⟩ =
        l₁ ++ MainAction.disableProject :: l₂ ++ MainAction.revokeAdmin :: l₃) := by
  cases dry <;> cases dont <;> cases conflict <;> cases enabled <;>
    first
    | exact absurd hbranch (by decide)
    | refine ⟨by decide, by decide, by decide, ?_⟩
  all_goals intro hc he
  all_goals first
  | exact absurd hc (by decide)
  | exact absurd he (by decide)
  | exact ⟨[MainAction.grantAdmin, MainAction.enableProject,
      MainAction.performAction Mode.dump], [], [MainAction.exitCode 0], by decide⟩
  | exact ⟨[MainAction.grantAdmin, MainAction.enableProject,
      MainAction.performAction Mode.purge], [], [MainAction.exitCode 0], by decide⟩

theorem c4_unwind_exact_witness :
    MainAction.revokeAdmin ∈ mainRun ⟨false, false, true, false, false, none⟩ ∧
    MainAction.disableProject ∈ mainRun ⟨false, false, true, false, false, none⟩ := by
  have h := c4_unwind_exact false true false false (Or.inr rfl)
  exact ⟨h.1.mpr rfl, h.2.1.mpr rfl⟩
